import Mathlib

/-!
Verification development for the web-snapshot repository.

We give a shallow embedding of the core logic of the repository's Python
sources and prove the specification's testable claims about it:

* `src/web_capture.py`   — capture orchestrator, slug generator (underscore
  variant loaded by the API; no dedup step);
* `src/web-capture.py`   — capture orchestrator with the screenshot dedup
  step (hyphenated variant);
* `src/web_api.py`       — job lifecycle manager (Flask + sqlite);
* `src/sitemap_scan.py`  — sitemap resolver.

Modelling conventions, used consistently below:

* Machine integers are `Nat` with explicit masking where overflow matters
  (the MD5 implementation masks with `2^32 - 1`).
* Byte strings are `List Nat` (each entry a byte value).
* The opaque collaborators (Playwright renderer, HTTP transport, gzip,
  the XML library) are passed in as explicit function parameters, with
  fallible calls modelled as `Option`/`Except` results.
* Wall-clock time is replaced by a logical clock stored in the modelled
  file system; the second-resolution timestamp rendered into artifact
  filenames is modelled as the clock value at write time.  Because the
  scroll/settle waits make successive captures of one URL take several
  seconds each, distinct captures get distinct timestamps, which the
  logical clock reproduces.  Artifact filenames are modelled structurally
  as stem/timestamp/extension triples rather than flat strings.
-/

/-! ## Basic string helpers

All string manipulation is implemented over `List Char` with structural
(fuel-driven where needed) recursion, so that every definition evaluates
inside the kernel; `String` is used only as the wrapper type. -/

/-- Splitter core: scan `rest`, cutting at each occurrence of `sep`.
`acc` holds the current segment reversed; fuel bounds the scan length. -/
def splitCharsAux (sep : List Char) : Nat → List Char → List Char → List (List Char)
  | 0, acc, rest => [acc.reverse ++ rest]
  | fuel + 1, acc, rest =>
    if sep.isPrefixOf rest && !sep.isEmpty then
      acc.reverse :: splitCharsAux sep fuel [] (rest.drop sep.length)
    else
      match rest with
      | [] => [acc.reverse]
      | c :: cs => splitCharsAux sep fuel (c :: acc) cs

/-- Model of Python `s.split(sep)` for nonempty `sep`, on char lists. -/
def splitChars (sep l : List Char) : List (List Char) :=
  splitCharsAux sep (l.length + 1) [] l

/-- Join segments back with a separator (inverse direction of `splitChars`). -/
def joinSep (sep : List Char) : List (List Char) → List Char
  | [] => []
  | [x] => x
  | x :: rest => x ++ sep ++ joinSep sep rest

def strSplitOn (s sep : String) : List String :=
  (splitChars sep.data s.data).map String.mk

/-- First-occurrence split: Python `s.split(sep, 1)`. -/
def splitOnce (s sep : String) : String × Option String :=
  match splitChars sep.data s.data with
  | [] => (s, none)
  | [x] => (String.mk x, none)
  | x :: rest => (String.mk x, some (String.mk (joinSep sep.data rest)))

/-- Model of Python `str.splitlines` (newline-separated view of a body). -/
def toLines (s : String) : List String := strSplitOn s ("\n")

def strStartsWith (s pre : String) : Bool := pre.data.isPrefixOf s.data

def strDrop (s : String) (n : Nat) : String := String.mk (s.data.drop n)

def strTake (s : String) (n : Nat) : String := String.mk (s.data.take n)

/-- ASCII model of Python `str.lower()` (inputs here are ASCII). -/
def lowerChar (c : Char) : Char :=
  if 65 ≤ c.toNat && c.toNat ≤ 90 then Char.ofNat (c.toNat + 32) else c

def strToLower (s : String) : String := String.mk (s.data.map lowerChar)

def isPyWs (c : Char) : Bool := c = ' ' || c = '\n' || c = '\t' || c = '\r'

/-- Model of Python `str.strip()`. -/
def strTrim (s : String) : String :=
  String.mk (((s.data.dropWhile isPyWs).reverse.dropWhile isPyWs).reverse)

def strIntercalate (sep : String) (parts : List String) : String :=
  String.mk (joinSep sep.data (parts.map (fun p => p.data)))

/-! ## Model of `urllib.parse.urlparse` for the scheme://netloc/path?query
forms the repository feeds it. -/

structure UrlParts where
  scheme : String
  netloc : String
  path : String
  query : String
  fragment : String
deriving DecidableEq, Repr

def urlparse (url : String) : UrlParts :=
  let (noFrag, frag) := splitOnce url ("#")
  match splitChars (("://").data) noFrag.data with
  | [only] =>
    let (p, q) := splitOnce (String.mk only) ("?")
    ⟨"", "", p, q.getD (""), frag.getD ("")⟩
  | sch :: rest =>
    let after := joinSep (("://").data) rest
    let netloc := after.takeWhile (fun c => c ≠ '/' && c ≠ '?')
    let rest2 := after.drop netloc.length
    let (p, q) := splitOnce (String.mk rest2) ("?")
    ⟨String.mk sch, String.mk netloc, p, q.getD (""), frag.getD ("")⟩
  | [] => ⟨"", "", "", "", ""⟩

/-! ## MD5 (`hashlib.md5`), over byte lists, 32-bit words as masked `Nat` -/

abbrev Bytes := List Nat

def md5Mask : Nat := 4294967295

def md5K : List Nat :=
  [3614090360, 3905402710, 606105819, 3250441966, 4118548399, 1200080426,
   2821735955, 4249261313, 1770035416, 2336552879, 4294925233, 2304563134,
   1804603682, 4254626195, 2792965006, 1236535329, 4129170786, 3225465664,
   643717713, 3921069994, 3593408605, 38016083, 3634488961, 3889429448,
   568446438, 3275163606, 4107603335, 1163531501, 2850285829, 4243563512,
   1735328473, 2368359562, 4294588738, 2272392833, 1839030562, 4259657740,
   2763975236, 1272893353, 4139469664, 3200236656, 681279174, 3936430074,
   3572445317, 76029189, 3654602809, 3873151461, 530742520, 3299628645,
   4096336452, 1126891415, 2878612391, 4237533241, 1700485571, 2399980690,
   4293915773, 2240044497, 1873313359, 4264355552, 2734768916, 1309151649,
   4149444226, 3174756917, 718787259, 3951481745]

def md5S : List Nat :=
  [7, 12, 17, 22, 7, 12, 17, 22, 7, 12, 17, 22, 7, 12, 17, 22,
   5, 9, 14, 20, 5, 9, 14, 20, 5, 9, 14, 20, 5, 9, 14, 20,
   4, 11, 16, 23, 4, 11, 16, 23, 4, 11, 16, 23, 4, 11, 16, 23,
   6, 10, 15, 21, 6, 10, 15, 21, 6, 10, 15, 21, 6, 10, 15, 21]

def rotl32 (x n : Nat) : Nat :=
  ((x <<< n) ||| (x >>> (32 - n))) &&& md5Mask

def md5NotW (x : Nat) : Nat := md5Mask ^^^ x

/-- Little-endian bytes of `n`, `k` bytes wide. -/
def leBytes (k n : Nat) : Bytes :=
  (List.range k).map (fun i => (n >>> (8 * i)) &&& 255)

/-- MD5 padding: `0x80`, zeros to 56 mod 64, 64-bit little-endian bit length. -/
def md5Pad (msg : Bytes) : Bytes :=
  let padLen := (119 - (msg.length % 64)) % 64
  msg ++ [128] ++ List.replicate padLen 0 ++ leBytes 8 ((msg.length * 8) % 18446744073709551616)

/-- Split a byte list into 64-byte chunks (fuel-driven structural recursion). -/
def chunks64Aux : Nat → Bytes → List Bytes
  | 0, _ => []
  | fuel + 1, bs =>
    match bs with
    | [] => []
    | _ :: _ => bs.take 64 :: chunks64Aux fuel (bs.drop 64)

def chunks64 (bs : Bytes) : List Bytes := chunks64Aux bs.length bs

/-- Little-endian 32-bit word `j` of a 64-byte chunk. -/
def leWord (chunk : Bytes) (j : Nat) : Nat :=
  chunk.getD (4 * j) 0 + 256 * chunk.getD (4 * j + 1) 0 +
    65536 * chunk.getD (4 * j + 2) 0 + 16777216 * chunk.getD (4 * j + 3) 0

def md5Round (m : Bytes) (st : Nat × Nat × Nat × Nat) (i : Nat) : Nat × Nat × Nat × Nat :=
  let (a, b, c, d) := st
  let f :=
    if i < 16 then (b &&& c) ||| (md5NotW b &&& d)
    else if i < 32 then (d &&& b) ||| (md5NotW d &&& c)
    else if i < 48 then b ^^^ c ^^^ d
    else c ^^^ (b ||| md5NotW d)
  let g :=
    if i < 16 then i
    else if i < 32 then (5 * i + 1) % 16
    else if i < 48 then (3 * i + 5) % 16
    else (7 * i) % 16
  let f := (f + a + md5K.getD i 0 + leWord m g) &&& md5Mask
  (d, (b + rotl32 f (md5S.getD i 0)) &&& md5Mask, b, c)

def md5Chunk (st : Nat × Nat × Nat × Nat) (chunk : Bytes) : Nat × Nat × Nat × Nat :=
  let (a0, b0, c0, d0) := st
  let (a, b, c, d) := (List.range 64).foldl (md5Round chunk) st
  ((a0 + a) &&& md5Mask, (b0 + b) &&& md5Mask, (c0 + c) &&& md5Mask, (d0 + d) &&& md5Mask)

/-- The 16-byte MD5 digest of a byte string. -/
def md5Bytes (msg : Bytes) : Bytes :=
  let st := (chunks64 (md5Pad msg)).foldl md5Chunk (1732584193, 4023233417, 2562383102, 271733878)
  let (a, b, c, d) := st
  leBytes 4 a ++ leBytes 4 b ++ leBytes 4 c ++ leBytes 4 d

def hexDigitChar (n : Nat) : Char :=
  Char.ofNat (if n < 10 then 48 + n else 87 + n)

/-- `hashlib.md5(msg).hexdigest()`. -/
def md5Hex (msg : Bytes) : String :=
  String.mk (((md5Bytes msg).map (fun b => [hexDigitChar (b / 16), hexDigitChar (b % 16)])).flatten)

/-- UTF-8 encoding of one character. -/
def utf8Char (c : Char) : Bytes :=
  let n := c.toNat
  if n < 128 then [n]
  else if n < 2048 then [192 + n / 64, 128 + n % 64]
  else if n < 65536 then [224 + n / 4096, 128 + (n / 64) % 64, 128 + n % 64]
  else [240 + n / 262144, 128 + (n / 4096) % 64, 128 + (n / 64) % 64, 128 + n % 64]

/-- Python `text.encode("utf-8")`. -/
def utf8Encode (s : String) : Bytes :=
  (s.data.map utf8Char).flatten

/-! ## Slug generator (`web_capture.py`: `_short_hash`, `_slugify_path`) -/

/-- `_short_hash(text, length=8)`: first 8 hex digits of the MD5 of the text. -/
def _short_hash (text : String) : String :=
  strTake (md5Hex (utf8Encode text)) 8

def isLowerAlnum (c : Char) : Bool :=
  (97 ≤ c.toNat && c.toNat ≤ 122) || (48 ≤ c.toNat && c.toNat ≤ 57)

/-- One step of `re.sub(r"[^a-z0-9]+", "-", _)`: map each disallowed char to a dash. -/
def slugMapChar (c : Char) : Char := if isLowerAlnum c then c else '-'

/-- Collapse runs of dashes to a single dash (`re.sub(r"-+", "-", _)`, which
together with `slugMapChar` realises the run-replacing first substitution). -/
def collapseDashes : List Char → List Char
  | [] => []
  | c :: rest =>
    let tailPart := collapseDashes rest
    if c = '-' then
      match tailPart with
      | '-' :: _ => tailPart
      | _ => '-' :: tailPart
    else c :: tailPart

/-- Python `base.strip("-")`. -/
def stripDashes (l : List Char) : List Char :=
  ((l.dropWhile (fun c => c = '-')).reverse.dropWhile (fun c => c = '-')).reverse

/-- The slug computed from the URL path alone (lines 72–81 of
`_slugify_path`): the query-digest suffix is handled by the caller. -/
def slugBase (rawPath : String) : String :=
  let path := strTrim (if rawPath = "" then "/" else rawPath)
  let base :=
    if path = "" || path = "/" then "index"
    else strIntercalate ("-") ((strSplitOn path ("/")).filter (fun s => s ≠ ""))
  let base := strToLower base
  let base := String.mk (stripDashes (collapseDashes (base.data.map slugMapChar)))
  if base = "" then "index" else base

/-- `_slugify_path(url)`: slug of the path, plus a short digest of the full
URL when a query string is present. -/
def _slugify_path (url : String) : String :=
  let p := urlparse url
  if p.query ≠ "" then slugBase p.path ++ ("-") ++ _short_hash url
  else slugBase p.path

/-! ## Claim C8: slug determinism and query disambiguation -/

/-- C8: the slug is a pure deterministic function of the URL (a Lean
function by construction, pinned here to concrete stable values);
`slug("https://ex.com/a/b")` and `slug("https://ex.com/a/b/")` both evaluate
to `"a-b"`; for a URL with a query string an 8-hex-digit digest of the full
URL is appended, making the `?x=1`, `?x=2` and query-free variants of
`/about` pairwise distinct; and any two URLs with identical path and no
query string get the same slug. -/
theorem slugify_deterministic_query_disambiguation :
    (_slugify_path ("https://ex.com/a/b") = "a-b" ∧
     _slugify_path ("https://ex.com/a/b/") = "a-b") ∧
    (_slugify_path ("https://ex.com/about?x=1") ≠ _slugify_path ("https://ex.com/about?x=2") ∧
     _slugify_path ("https://ex.com/about?x=1") ≠ _slugify_path ("https://ex.com/about") ∧
     _slugify_path ("https://ex.com/about?x=2") ≠ _slugify_path ("https://ex.com/about")) ∧
    ((_short_hash ("https://ex.com/about?x=1")).length = 8 ∧
     (_short_hash ("https://ex.com/about?x=2")).length = 8) ∧
    (∀ u : String, (urlparse u).query ≠ "" →
      _slugify_path u = slugBase (urlparse u).path ++ ("-") ++ _short_hash u) ∧
    (∀ u v : String, (urlparse u).path = (urlparse v).path →
      (urlparse u).query = "" → (urlparse v).query = "" →
      _slugify_path u = _slugify_path v) := by
  refine ⟨⟨by decide, by decide⟩, ⟨by decide, by decide, by decide⟩,
    ⟨by decide, by decide⟩, ?_, ?_⟩
  · intro u hq
    simp only [_slugify_path, if_pos hq]
  · intro u v hp hqu hqv
    simp only [_slugify_path, hqu, hqv, hp, ne_eq, not_true_eq_false, if_false, ite_false]

/-- C8 witness: the universally quantified clauses of the claim theorem
instantiated at concrete URLs, hypotheses discharged by evaluation. -/
theorem slugify_deterministic_query_disambiguation_witness :
    _slugify_path ("https://ex.com/q?a=1") =
      slugBase ((urlparse ("https://ex.com/q?a=1")).path) ++ ("-") ++
        _short_hash ("https://ex.com/q?a=1") ∧
    _slugify_path ("https://ex.com/x/y") = _slugify_path ("https://other.org/x/y") := by
  constructor
  · exact slugify_deterministic_query_disambiguation.2.2.2.1 ("https://ex.com/q?a=1") (by decide)
  · exact slugify_deterministic_query_disambiguation.2.2.2.2 ("https://ex.com/x/y")
      ("https://other.org/x/y") (by decide) (by decide) (by decide)

/-! ## Modelled file system

Artifacts live under `data/snapshots/{folder}/{html|screenshots}/`; a
directory is modelled as its folder name plus which of the two sibling
subdirectories it is.  A filename `{stem}_{timestamp}{ext}` is modelled
structurally as stem/optional-timestamp/extension.  Modification times are
drawn from a logical clock that advances on every write. -/

inductive ArtKind | html | shots
deriving DecidableEq, Repr

/-- One origin-scoped artifact directory. -/
structure Dir where
  domain : String
  kind : ArtKind
deriving DecidableEq, Repr

/-- A structured artifact filename. -/
structure FName where
  stem : String
  ts : Option Nat
  ext : String
deriving DecidableEq, Repr

structure FileEnt where
  dir : Dir
  name : FName
  content : Bytes
  mtime : Nat
deriving DecidableEq, Repr

structure FS where
  dirs : List Dir
  files : List FileEnt
  clock : Nat
deriving DecidableEq, Repr

def FS.empty : FS := ⟨[], [], 0⟩

/-- `os.makedirs(d, exist_ok=True)`. -/
def FS.makedirs (fs : FS) (d : Dir) : FS :=
  if fs.dirs.contains d then fs else { fs with dirs := d :: fs.dirs }

/-- Write (or overwrite) a file; its mtime is the current clock. -/
def FS.writeFile (fs : FS) (d : Dir) (n : FName) (content : Bytes) : FS :=
  { fs with
    files := ⟨d, n, content, fs.clock⟩ ::
      fs.files.filter (fun f => decide (¬(f.dir = d ∧ f.name = n))),
    clock := fs.clock + 1 }

/-- `os.remove`. -/
def FS.removeFile (fs : FS) (d : Dir) (n : FName) : FS :=
  { fs with files := fs.files.filter (fun f => decide (¬(f.dir = d ∧ f.name = n))) }

def FS.hasFile (fs : FS) (d : Dir) (n : FName) : Bool :=
  fs.files.any (fun f => decide (f.dir = d ∧ f.name = n))

def shotsDir (folder : String) : Dir := ⟨folder, ArtKind.shots⟩

def htmlDir (folder : String) : Dir := ⟨folder, ArtKind.html⟩

/-! ## Grouping URLs by domain (`domain_map.setdefault(folder, []).append(url)`) -/

/-- Append `v` to the bucket of `k`, creating the bucket at the end on first
sight — Python dict insertion-order semantics. -/
def insertGroup : List (String × List String) → String → String → List (String × List String)
  | [], k, v => [(k, [v])]
  | (k1, vs) :: rest, k, v =>
    if k1 = k then (k1, vs ++ [v]) :: rest
    else (k1, vs) :: insertGroup rest k v

def groupByKey (key : String → String) (urls : List String) : List (String × List String) :=
  urls.foldl (fun acc u => insertGroup acc (key u) u) []

/-! ## Capture pipeline of `web-capture.py` (hyphenated file: screenshot
dedup against the most recent prior screenshot of the same domain) -/

namespace WebCapHy

/-- Outcome of navigating one URL inside an open session: the rendered
page (HTML text, whether `page.viewport_size` is available, screenshot
bytes), or a navigation/rendering exception. -/
inductive Visit
  | page (html : String) (hasViewport : Bool) (shot : Bytes)
  | fail (msg : String)

/-- The opaque Playwright collaborator: per-domain session launch (with
`some errMsg` modelling an exception) and per-URL navigation.  `visit` is a
pure function, so the underlying page content is unchanged across calls. -/
structure Renderer where
  launch : String → Option String
  visit : String → Visit

inductive CapResult
  | saved (url : String) (path : Dir × FName)
  | duplicate (url : String)
  | skipped (url reason : String)
  | error (url err : String)
deriving DecidableEq, Repr

/-- `folder_name = domain.replace(".", "_")` after stripping a leading
`www.` from the netloc. -/
def folder_of (url : String) : String :=
  let d := (urlparse url).netloc
  let d := if strStartsWith d ("www.") then strDrop d 4 else d
  strIntercalate ("_") (strSplitOn d ("."))

/-- Pick the entry with the greatest mtime (Python sorts ascending by mtime
and takes the last element; later listed entries win ties). -/
def latestIn (best : FileEnt) : List FileEnt → FileEnt
  | [] => best
  | f :: rest => latestIn (if best.mtime ≤ f.mtime then f else best) rest

/-- `get_latest_screenshot_hash(domain_dir, curr_file)`: MD5 of the
most-recently-modified `.png` in the directory other than the current file,
or `none` when the directory does not exist or holds no other `.png`. -/
def get_latest_screenshot_hash (fs : FS) (domainDir : Dir) (curr : FName) : Option String :=
  if !(fs.dirs.contains domainDir) then none
  else
    match fs.files.filter
        (fun f => decide (f.dir = domainDir ∧ f.name.ext = ".png" ∧ f.name ≠ curr)) with
    | [] => none
    | f :: rest => some (md5Hex (latestIn f rest).content)

/-- The per-URL body of the bucket loop (navigate, save HTML, save
screenshot, dedup against the latest prior screenshot). -/
def processUrl (R : Renderer) (folder : String) (fs : FS) (url : String) : FS × CapResult :=
  match R.visit url with
  | .fail msg => (fs, .error url msg)
  | .page html hasViewport shot =>
    if !hasViewport then (fs, .skipped url "no viewport")
    else
      let hname : FName := ⟨folder, none, ".html"⟩
      let fs1 := fs.writeFile (htmlDir folder) hname (utf8Encode html)
      let ts := fs1.clock
      let sname : FName := ⟨folder, some ts, ".png"⟩
      let fs2 := fs1.writeFile (shotsDir folder) sname shot
      let previous_hash := get_latest_screenshot_hash fs2 (shotsDir folder) sname
      let current_hash := md5Hex shot
      match previous_hash with
      | none => (fs2, .saved url (shotsDir folder, sname))
      | some ph =>
        if current_hash = ph then (fs2.removeFile (shotsDir folder) sname, .duplicate url)
        else (fs2, .saved url (shotsDir folder, sname))

/-- The inner `for url in urls` loop. -/
def runUrls (R : Renderer) (folder : String) (fs : FS) : List String → FS × List CapResult
  | [] => (fs, [])
  | u :: rest =>
    let (fs1, r) := processUrl R folder fs u
    let (fs2, rs) := runUrls R folder fs1 rest
    (fs2, r :: rs)

/-- The outer `for folder_name, urls in domain_map.items()` loop; also
returns the list of domains whose session actually launched. -/
def runBuckets (R : Renderer) (fs : FS) : List (String × List String) → List CapResult × FS × List String
  | [] => ([], fs, [])
  | (folder, urls) :: rest =>
    let fsA := (fs.makedirs (shotsDir folder)).makedirs (htmlDir folder)
    match R.launch folder with
    | some msg =>
      let (rs, fs2, ls) := runBuckets R fsA rest
      (urls.map (fun u => CapResult.error u msg) ++ rs, fs2, ls)
    | none =>
      let (fs1, rs1) := runUrls R folder fsA urls
      let (rs2, fs2, ls) := runBuckets R fs1 rest
      (rs1 ++ rs2, fs2, folder :: ls)

/-- `capture_urls(url_list)` of `web-capture.py`. -/
def capture_urls (R : Renderer) (fs : FS) (url_list : List String) : List CapResult × FS × List String :=
  runBuckets R fs (groupByKey folder_of url_list)

end WebCapHy

theorem contains_makedirs_self (fs : FS) (d : Dir) : (fs.makedirs d).dirs.contains d = true := by
  by_cases h : d ∈ fs.dirs <;> simp [FS.makedirs, h]

theorem contains_makedirs (fs : FS) (d e : Dir) (h : fs.dirs.contains e = true) :
    (fs.makedirs d).dirs.contains e = true := by
  by_cases hc : d ∈ fs.dirs <;> simp_all [FS.makedirs]

theorem makedirs_files (fs : FS) (d : Dir) : (fs.makedirs d).files = fs.files := by
  by_cases h : d ∈ fs.dirs <;> simp [FS.makedirs, h]

theorem makedirs_clock (fs : FS) (d : Dir) : (fs.makedirs d).clock = fs.clock := by
  by_cases h : d ∈ fs.dirs <;> simp [FS.makedirs, h]

namespace WebCapHy

set_option maxHeartbeats 1000000

theorem get_latest_none (fs : FS) (dd : Dir) (curr : FName)
    (h : ∀ f ∈ fs.files, f.dir = dd → f.name.ext = ".png" → f.name = curr) :
    get_latest_screenshot_hash fs dd curr = none := by
  have hnil : fs.files.filter
      (fun f => decide (f.dir = dd ∧ f.name.ext = ".png" ∧ f.name ≠ curr)) = [] := by
    refine List.filter_eq_nil_iff.mpr (fun f hf => ?_)
    intro hp
    simp only [decide_eq_true_eq] at hp
    exact hp.2.2 (h f hf hp.1 hp.2.1)
  simp only [Bool.decide_and, decide_not] at hnil
  simp [get_latest_screenshot_hash, hnil]

theorem get_latest_single (fs : FS) (dd : Dir) (curr : FName) (e : FileEnt)
    (hc : fs.dirs.contains dd = true)
    (h : fs.files.filter
      (fun f => decide (f.dir = dd ∧ f.name.ext = ".png" ∧ f.name ≠ curr)) = [e]) :
    get_latest_screenshot_hash fs dd curr = some (md5Hex e.content) := by
  have hc2 : dd ∈ fs.dirs := by simpa using hc
  simp only [Bool.decide_and, decide_not] at h
  simp [get_latest_screenshot_hash, hc2, h, latestIn]

theorem writeFile_clock (fs : FS) (d : Dir) (n : FName) (c : Bytes) :
    (fs.writeFile d n c).clock = fs.clock + 1 := rfl

theorem processUrl_fresh_eq
    (R : Renderer) (fol : String) (fs : FS) (u html : String) (shot : Bytes)
    (hv : R.visit u = .page html true shot)
    (hfilter0 : fs.files.filter
      (fun f => decide (f.dir = shotsDir fol ∧ f.name.ext = ".png")) = []) :
    processUrl R fol fs u =
      ({ dirs := fs.dirs,
         files :=
           ⟨shotsDir fol, ⟨fol, some (fs.clock + 1), ".png"⟩, shot, fs.clock + 1⟩ ::
           List.filter
             (fun f => decide ¬(f.dir = shotsDir fol ∧
                f.name = ⟨fol, some (fs.clock + 1), ".png"⟩))
             (⟨htmlDir fol, ⟨fol, none, ".html"⟩, utf8Encode html, fs.clock⟩ ::
               List.filter
                 (fun f => decide ¬(f.dir = htmlDir fol ∧ f.name = ⟨fol, none, ".html"⟩))
                 fs.files),
         clock := fs.clock + 1 + 1 },
       CapResult.saved u (shotsDir fol, ⟨fol, some (fs.clock + 1), ".png"⟩)) := by
  have hnone : ∀ f ∈ fs.files, ¬(f.dir = shotsDir fol ∧ f.name.ext = ".png") := by
    intro f hf hp
    have := List.filter_eq_nil_iff.mp hfilter0 f hf
    simp only [decide_eq_true_eq] at this
    exact this hp
  have hgl : get_latest_screenshot_hash
      ((fs.writeFile (htmlDir fol) ⟨fol, none, ".html"⟩ (utf8Encode html)).writeFile
        (shotsDir fol) ⟨fol, some (fs.clock + 1), ".png"⟩ shot)
      (shotsDir fol) ⟨fol, some (fs.clock + 1), ".png"⟩ = none := by
    apply get_latest_none
    intro f hf hdir hext
    simp only [FS.writeFile, List.mem_cons] at hf
    rcases hf with h1 | hf
    · rw [h1]
    · have hf2 := List.mem_filter.mp hf
      rcases List.mem_cons.mp hf2.1 with h2 | hf3
      · exfalso
        rw [h2] at hdir
        simp [htmlDir, shotsDir] at hdir
      · exfalso
        exact hnone f (List.mem_filter.mp hf3).1 ⟨hdir, hext⟩
  simp only [processUrl, hv, Bool.not_true, Bool.false_eq_true, if_false, writeFile_clock, hgl]
  simp [FS.writeFile]

theorem processUrl_dup_eq
    (R : Renderer) (fol : String) (fs : FS) (u html : String) (shot : Bytes) (prev : FileEnt)
    (hv : R.visit u = .page html true shot)
    (hdir : fs.dirs.contains (shotsDir fol) = true)
    (hfilter : fs.files.filter
      (fun f => decide (f.dir = shotsDir fol ∧ f.name.ext = ".png")) = [prev])
    (hpcontent : prev.content = shot)
    (hpname : prev.name ≠ ⟨fol, some (fs.clock + 1), ".png"⟩) :
    processUrl R fol fs u =
      ({ dirs := fs.dirs,
         files := List.filter
           (fun f => decide ¬(f.dir = shotsDir fol ∧
              f.name = ⟨fol, some (fs.clock + 1), ".png"⟩))
           (⟨shotsDir fol, ⟨fol, some (fs.clock + 1), ".png"⟩, shot, fs.clock + 1⟩ ::
             List.filter
               (fun f => decide ¬(f.dir = shotsDir fol ∧
                  f.name = ⟨fol, some (fs.clock + 1), ".png"⟩))
               (⟨htmlDir fol, ⟨fol, none, ".html"⟩, utf8Encode html, fs.clock⟩ ::
                 List.filter
                   (fun f => decide ¬(f.dir = htmlDir fol ∧ f.name = ⟨fol, none, ".html"⟩))
                   fs.files)),
         clock := fs.clock + 1 + 1 },
       CapResult.duplicate u) := by
  have hprevmem : prev ∈ fs.files ∧ prev.dir = shotsDir fol ∧ prev.name.ext = ".png" := by
    have : prev ∈ fs.files.filter
        (fun f => decide (f.dir = shotsDir fol ∧ f.name.ext = ".png")) := by
      rw [hfilter]; exact List.mem_singleton.mpr rfl
    have h2 := List.mem_filter.mp this
    refine ⟨h2.1, ?_⟩
    have := h2.2
    simpa using this
  have huniq : ∀ f ∈ fs.files, f.dir = shotsDir fol → f.name.ext = ".png" → f = prev := by
    intro f hf h1 h2
    have : f ∈ fs.files.filter
        (fun f => decide (f.dir = shotsDir fol ∧ f.name.ext = ".png")) :=
      List.mem_filter.mpr ⟨hf, by simp [h1, h2]⟩
    rw [hfilter] at this
    exact List.mem_singleton.mp this
  have hgl : get_latest_screenshot_hash
      ((fs.writeFile (htmlDir fol) ⟨fol, none, ".html"⟩ (utf8Encode html)).writeFile
        (shotsDir fol) ⟨fol, some (fs.clock + 1), ".png"⟩ shot)
      (shotsDir fol) ⟨fol, some (fs.clock + 1), ".png"⟩ = some (md5Hex prev.content) := by
    apply get_latest_single
    · simpa [FS.writeFile] using hdir
    · simp only [FS.writeFile]
      rw [List.filter_cons_of_neg (by simp), List.filter_filter,
        List.filter_cons_of_neg (by simp [htmlDir, shotsDir]), List.filter_filter]
      trans (List.filter (fun f => decide (f.dir = shotsDir fol ∧ f.name.ext = ".png")) fs.files)
      · apply List.filter_congr
        intro f hf
        by_cases hpng : f.dir = shotsDir fol ∧ f.name.ext = ".png"
        · have hfp := huniq f hf hpng.1 hpng.2
          subst hfp
          simp [hpng.1, hpng.2, hpname, htmlDir, shotsDir]
        · have h1 : decide (f.dir = shotsDir fol ∧ f.name.ext = ".png" ∧
              f.name ≠ FName.mk fol (some (fs.clock + 1)) ".png") = false := by
            simp only [decide_eq_false_iff_not]
            rintro ⟨a, b, _⟩
            exact hpng ⟨a, b⟩
          simp [h1, decide_eq_false hpng]
      · exact hfilter
  simp only [processUrl, hv, Bool.not_true, Bool.false_eq_true, if_false, writeFile_clock, hgl,
    hpcontent, if_true]
  simp [FS.writeFile, FS.removeFile]

theorem processUrl_fresh_spec
    (R : Renderer) (fol : String) (fs : FS) (u html : String) (shot : Bytes)
    (hv : R.visit u = .page html true shot)
    (hfilter0 : fs.files.filter
      (fun f => decide (f.dir = shotsDir fol ∧ f.name.ext = ".png")) = []) :
    (processUrl R fol fs u).2 =
      CapResult.saved u (shotsDir fol, ⟨fol, some (fs.clock + 1), ".png"⟩) ∧
    (processUrl R fol fs u).1.dirs = fs.dirs ∧
    (processUrl R fol fs u).1.clock = fs.clock + 2 ∧
    (processUrl R fol fs u).1.files.filter
      (fun f => decide (f.dir = shotsDir fol ∧ f.name.ext = ".png")) =
      [⟨shotsDir fol, ⟨fol, some (fs.clock + 1), ".png"⟩, shot, fs.clock + 1⟩] ∧
    (processUrl R fol fs u).1.hasFile (htmlDir fol) ⟨fol, none, ".html"⟩ = true := by
  have hnone := List.filter_eq_nil_iff.mp hfilter0
  rw [processUrl_fresh_eq R fol fs u html shot hv hfilter0]
  refine ⟨rfl, rfl, rfl, ?_, ?_⟩
  · rw [List.filter_cons_of_pos (by simp), List.filter_filter,
      List.filter_cons_of_neg (by simp [htmlDir, shotsDir]), List.filter_filter]
    have : ∀ f ∈ fs.files,
        (decide (f.dir = shotsDir fol ∧ f.name.ext = ".png") &&
         decide ¬(f.dir = shotsDir fol ∧
            f.name = FName.mk fol (some (fs.clock + 1)) ".png") &&
         decide ¬(f.dir = htmlDir fol ∧ f.name = FName.mk fol none ".html")) = false := by
      intro f hf
      have h0 : decide (f.dir = shotsDir fol ∧ f.name.ext = ".png") = false := by
        simp only [decide_eq_false_iff_not]
        intro hp
        exact absurd hp (by simpa using hnone f hf)
      simp [h0]
    simp only [List.cons.injEq, true_and]
    refine List.filter_eq_nil_iff.mpr (fun f hf => ?_)
    intro hp
    have h0 : ¬(f.dir = shotsDir fol ∧ f.name.ext = ".png") := by simpa using hnone f hf
    simp only [Bool.and_eq_true, decide_eq_true_eq] at hp
    exact h0 hp.1.1
  · apply List.any_eq_true.mpr
    refine ⟨⟨htmlDir fol, ⟨fol, none, ".html"⟩, utf8Encode html, fs.clock⟩, ?_, by simp⟩
    apply List.mem_cons_of_mem
    apply List.mem_filter.mpr
    refine ⟨List.mem_cons_self _ _, by simp [htmlDir, shotsDir]⟩

theorem processUrl_dup_spec
    (R : Renderer) (fol : String) (fs : FS) (u html : String) (shot : Bytes) (prev : FileEnt)
    (hv : R.visit u = .page html true shot)
    (hdir : fs.dirs.contains (shotsDir fol) = true)
    (hfilter : fs.files.filter
      (fun f => decide (f.dir = shotsDir fol ∧ f.name.ext = ".png")) = [prev])
    (hpcontent : prev.content = shot)
    (hpname : prev.name ≠ ⟨fol, some (fs.clock + 1), ".png"⟩) :
    (processUrl R fol fs u).2 = CapResult.duplicate u ∧
    (processUrl R fol fs u).1.dirs = fs.dirs ∧
    (processUrl R fol fs u).1.clock = fs.clock + 2 ∧
    (processUrl R fol fs u).1.hasFile (shotsDir fol) ⟨fol, some (fs.clock + 1), ".png"⟩ = false ∧
    (processUrl R fol fs u).1.hasFile (htmlDir fol) ⟨fol, none, ".html"⟩ = true ∧
    (processUrl R fol fs u).1.hasFile (shotsDir fol) prev.name = true := by
  have hprevmem : prev ∈ fs.files ∧ prev.dir = shotsDir fol ∧ prev.name.ext = ".png" := by
    have : prev ∈ fs.files.filter
        (fun f => decide (f.dir = shotsDir fol ∧ f.name.ext = ".png")) := by
      rw [hfilter]; exact List.mem_singleton.mpr rfl
    have h2 := List.mem_filter.mp this
    refine ⟨h2.1, ?_⟩
    simpa using h2.2
  rw [processUrl_dup_eq R fol fs u html shot prev hv hdir hfilter hpcontent hpname]
  refine ⟨rfl, rfl, rfl, ?_, ?_, ?_⟩
  · apply List.any_eq_false.mpr
    intro f hf
    have hmf := List.mem_filter.mp hf
    intro hp
    simp only [decide_eq_true_eq] at hp
    have := hmf.2
    simp only [decide_eq_true_eq] at this
    exact this hp
  · apply List.any_eq_true.mpr
    refine ⟨⟨htmlDir fol, ⟨fol, none, ".html"⟩, utf8Encode html, fs.clock⟩, ?_, by simp⟩
    apply List.mem_filter.mpr
    refine ⟨?_, by simp [htmlDir, shotsDir]⟩
    apply List.mem_cons_of_mem
    apply List.mem_filter.mpr
    refine ⟨List.mem_cons_self _ _, by simp [htmlDir, shotsDir]⟩
  · apply List.any_eq_true.mpr
    refine ⟨prev, ?_, by simp [hprevmem.2.1]⟩
    apply List.mem_filter.mpr
    refine ⟨?_, by simp [hpname]⟩
    apply List.mem_cons_of_mem
    apply List.mem_filter.mpr
    refine ⟨?_, by simp [hpname]⟩
    apply List.mem_cons_of_mem
    apply List.mem_filter.mpr
    refine ⟨hprevmem.1, ?_⟩
    simp only [decide_eq_true_eq]
    intro hcon
    rw [hprevmem.2.1] at hcon
    simp [htmlDir, shotsDir] at hcon

theorem capture_single (R : Renderer) (fs : FS) (u : String)
    (hl : R.launch (folder_of u) = none) :
    capture_urls R fs [u] =
      ([(processUrl R (folder_of u)
          ((fs.makedirs (shotsDir (folder_of u))).makedirs (htmlDir (folder_of u))) u).2],
       (processUrl R (folder_of u)
          ((fs.makedirs (shotsDir (folder_of u))).makedirs (htmlDir (folder_of u))) u).1,
       [folder_of u]) := by
  rcases hp : processUrl R (folder_of u)
      ((fs.makedirs (shotsDir (folder_of u))).makedirs (htmlDir (folder_of u))) u with ⟨fs1, r⟩
  simp [capture_urls, groupByKey, insertGroup, runBuckets, hl, runUrls, hp]

/-- C1: capturing one URL twice in immediate succession with unchanged
underlying page content (the renderer is a fixed function), starting from a
state whose screenshot directory for that origin holds no `.png`, yields
`saved` on the first call and `duplicate` on the second; afterwards the
second (duplicate) screenshot file does not exist, while the first
screenshot and the HTML file do. -/
theorem capture_twice_dedup
    (R : Renderer) (fs0 : FS) (u html : String) (shot : Bytes)
    (hv : R.visit u = .page html true shot)
    (hl : R.launch (folder_of u) = none)
    (hclean : ∀ f ∈ fs0.files, ¬(f.dir = shotsDir (folder_of u) ∧ f.name.ext = ".png")) :
    (capture_urls R fs0 [u]).1 =
      [CapResult.saved u (shotsDir (folder_of u),
        ⟨folder_of u, some (fs0.clock + 1), ".png"⟩)] ∧
    (capture_urls R (capture_urls R fs0 [u]).2.1 [u]).1 = [CapResult.duplicate u] ∧
    (capture_urls R (capture_urls R fs0 [u]).2.1 [u]).2.1.hasFile
      (shotsDir (folder_of u)) ⟨folder_of u, some (fs0.clock + 3), ".png"⟩ = false ∧
    (capture_urls R (capture_urls R fs0 [u]).2.1 [u]).2.1.hasFile
      (shotsDir (folder_of u)) ⟨folder_of u, some (fs0.clock + 1), ".png"⟩ = true ∧
    (capture_urls R (capture_urls R fs0 [u]).2.1 [u]).2.1.hasFile
      (htmlDir (folder_of u)) ⟨folder_of u, none, ".html"⟩ = true := by
  have hfilter0 : fs0.files.filter
      (fun f => decide (f.dir = shotsDir (folder_of u) ∧ f.name.ext = ".png")) = [] := by
    refine List.filter_eq_nil_iff.mpr (fun f hf => ?_)
    simpa using hclean f hf
  have hAfiles : ((fs0.makedirs (shotsDir (folder_of u))).makedirs
      (htmlDir (folder_of u))).files = fs0.files := by
    rw [makedirs_files, makedirs_files]
  have hAclock : ((fs0.makedirs (shotsDir (folder_of u))).makedirs
      (htmlDir (folder_of u))).clock = fs0.clock := by
    rw [makedirs_clock, makedirs_clock]
  have hfA : ((fs0.makedirs (shotsDir (folder_of u))).makedirs
      (htmlDir (folder_of u))).files.filter
      (fun f => decide (f.dir = shotsDir (folder_of u) ∧ f.name.ext = ".png")) = [] := by
    rw [hAfiles]; exact hfilter0
  have spec1 := processUrl_fresh_spec R (folder_of u)
    ((fs0.makedirs (shotsDir (folder_of u))).makedirs (htmlDir (folder_of u))) u html shot hv hfA
  rw [hAclock] at spec1
  rw [capture_single R fs0 u hl]
  refine ⟨by rw [spec1.1], ?_⟩
  -- second call
  have hst1 := spec1.2.1   -- dirs
  have hst1c := spec1.2.2.1  -- clock
  have hst1f := spec1.2.2.2.1  -- png filter
  set st1 := (processUrl R (folder_of u)
    ((fs0.makedirs (shotsDir (folder_of u))).makedirs (htmlDir (folder_of u))) u).1 with hst1def
  have hBfiles : ((st1.makedirs (shotsDir (folder_of u))).makedirs
      (htmlDir (folder_of u))).files = st1.files := by
    rw [makedirs_files, makedirs_files]
  have hBclock : ((st1.makedirs (shotsDir (folder_of u))).makedirs
      (htmlDir (folder_of u))).clock = st1.clock := by
    rw [makedirs_clock, makedirs_clock]
  have hBdir : ((st1.makedirs (shotsDir (folder_of u))).makedirs
      (htmlDir (folder_of u))).dirs.contains (shotsDir (folder_of u)) = true :=
    contains_makedirs _ _ _ (contains_makedirs_self _ _)
  have hfB : ((st1.makedirs (shotsDir (folder_of u))).makedirs
      (htmlDir (folder_of u))).files.filter
      (fun f => decide (f.dir = shotsDir (folder_of u) ∧ f.name.ext = ".png")) =
      [⟨shotsDir (folder_of u), ⟨folder_of u, some (fs0.clock + 1), ".png"⟩,
        shot, fs0.clock + 1⟩] := by
    rw [hBfiles]; exact hst1f
  have hpname : FName.mk (folder_of u) (some (fs0.clock + 1)) ".png" ≠
      FName.mk (folder_of u) (some (((st1.makedirs (shotsDir (folder_of u))).makedirs
        (htmlDir (folder_of u))).clock + 1)) ".png" := by
    rw [hBclock, hst1c]
    simp only [ne_eq, FName.mk.injEq, Option.some.injEq]
    intro h
    omega
  have spec2 := processUrl_dup_spec R (folder_of u)
    ((st1.makedirs (shotsDir (folder_of u))).makedirs (htmlDir (folder_of u))) u html shot
    ⟨shotsDir (folder_of u), ⟨folder_of u, some (fs0.clock + 1), ".png"⟩, shot, fs0.clock + 1⟩
    hv hBdir hfB rfl hpname
  rw [hBclock, hst1c] at spec2
  rw [capture_single R st1 u hl]
  have h3 : fs0.clock + 2 + 1 = fs0.clock + 3 := by omega
  refine ⟨by rw [spec2.1], ?_, ?_, ?_⟩
  · have := spec2.2.2.2.1
    rw [h3] at this
    exact this
  · exact spec2.2.2.2.2.2
  · exact spec2.2.2.2.2.1

end WebCapHy

/-- A concrete renderer for witnesses: every session launches, every visit
renders the same small page. -/
def hyRenderer : WebCapHy.Renderer :=
  ⟨fun _ => none, fun _ => WebCapHy.Visit.page ("<p>hi</p>") true [1, 2, 3]⟩

/-- C1 witness: the dedup theorem applied to a concrete URL against an
empty snapshot store; the second capture reports `duplicate`. -/
theorem capture_twice_dedup_witness :
    (∀ f ∈ FS.empty.files,
      ¬(f.dir = shotsDir (WebCapHy.folder_of ("https://ex.com/a")) ∧ f.name.ext = ".png")) ∧
    (WebCapHy.capture_urls hyRenderer
        (WebCapHy.capture_urls hyRenderer FS.empty ["https://ex.com/a"]).2.1
        ["https://ex.com/a"]).1 =
      [WebCapHy.CapResult.duplicate ("https://ex.com/a")] :=
  ⟨by simp [FS.empty],
   (WebCapHy.capture_twice_dedup hyRenderer FS.empty ("https://ex.com/a") ("<p>hi</p>")
      [1, 2, 3] rfl rfl (by simp [FS.empty])).2.1⟩

/-! ## Capture orchestrator of `web_capture.py` (underscore file, loaded by
the API: slug-based timestamped filenames, no dedup step) -/

namespace WebCap

/-- Outcome of navigating one URL: rendered HTML and screenshot, or a
navigation/rendering exception. -/
inductive Visit
  | ok (html : String) (shot : Bytes)
  | fail (msg : String)

/-- The opaque Playwright collaborator. -/
structure Renderer where
  launch : String → Option String
  visit : String → Visit

inductive CapResult
  | saved (url : String) (html_path screenshot_path : Dir × FName)
  | error (url err : String)
deriving DecidableEq, Repr

/-- `folder_name = domain` (dots kept) after stripping a leading `www.`. -/
def folder_of (url : String) : String :=
  let d := (urlparse url).netloc
  if strStartsWith d ("www.") then strDrop d 4 else d

/-- The per-URL body: navigate, save HTML and screenshot under
`{slug}_{timestamp}` names, report `saved`; exceptions become `error`. -/
def processUrl (R : Renderer) (folder : String) (fs : FS) (url : String) : FS × CapResult :=
  match R.visit url with
  | .fail msg => (fs, .error url msg)
  | .ok html shot =>
    let slug := _slugify_path url
    let ts := fs.clock
    let hname : FName := ⟨slug, some ts, ".html"⟩
    let fs1 := fs.writeFile (htmlDir folder) hname (utf8Encode html)
    let sname : FName := ⟨slug, some ts, ".png"⟩
    let fs2 := fs1.writeFile (shotsDir folder) sname shot
    (fs2, .saved url (htmlDir folder, hname) (shotsDir folder, sname))

def runUrls (R : Renderer) (folder : String) (fs : FS) : List String → FS × List CapResult
  | [] => (fs, [])
  | u :: rest =>
    let (fs1, r) := processUrl R folder fs u
    let (fs2, rs) := runUrls R folder fs1 rest
    (fs2, r :: rs)

def runBuckets (R : Renderer) (fs : FS) : List (String × List String) → List CapResult × FS × List String
  | [] => ([], fs, [])
  | (folder, urls) :: rest =>
    let fsA := (fs.makedirs (shotsDir folder)).makedirs (htmlDir folder)
    match R.launch folder with
    | some msg =>
      let (rs, fs2, ls) := runBuckets R fsA rest
      (urls.map (fun u => CapResult.error u msg) ++ rs, fs2, ls)
    | none =>
      let (fs1, rs1) := runUrls R folder fsA urls
      let (rs2, fs2, ls) := runBuckets R fs1 rest
      (rs1 ++ rs2, fs2, folder :: ls)

/-- `capture_urls(url_list)` of `web_capture.py`; besides the result list
and final store, the list of domains whose session was opened is returned. -/
def capture_urls (R : Renderer) (fs : FS) (url_list : List String) : List CapResult × FS × List String :=
  runBuckets R fs (groupByKey folder_of url_list)

/-- The (url, outcome, error message) summary of one result; artifact paths
are dropped, so the summary depends only on the renderer. -/
def resSummary : CapResult → String × String × Option String
  | .saved u _ _ => (u, "saved", none)
  | .error u e => (u, "error", some e)

def visitSummary (R : Renderer) (u : String) : String × String × Option String :=
  match R.visit u with
  | .ok _ _ => (u, "saved", none)
  | .fail m => (u, "error", some m)

/-- What one origin bucket reports: launch failure turns every URL of the
bucket into `error` with the launch message; otherwise each URL is judged
by its own navigation only. -/
def bucketSummary (R : Renderer) (folder : String) (urls : List String) :
    List (String × String × Option String) :=
  match R.launch folder with
  | some msg => urls.map (fun u => (u, "error", some msg))
  | none => urls.map (visitSummary R)

theorem runUrls_summary (R : Renderer) (folder : String) (urls : List String) :
    ∀ fs : FS, ((runUrls R folder fs urls).2).map resSummary = urls.map (visitSummary R) := by
  induction urls with
  | nil => intro fs; simp [runUrls]
  | cons u rest ih =>
    intro fs
    rcases hp : processUrl R folder fs u with ⟨fs1, r⟩
    have hr : resSummary r = visitSummary R u := by
      rcases hV : R.visit u with h | m <;> simp [processUrl, hV] at hp <;>
        simp [← hp.2, resSummary, visitSummary, hV]
    rcases hq : runUrls R folder fs1 rest with ⟨fs2, rs⟩
    simp only [runUrls, hp, hq, List.map_cons]
    rw [hr]
    have := ih fs1
    rw [hq] at this
    simp only at this
    rw [this]

theorem runBuckets_summary (R : Renderer) (buckets : List (String × List String)) :
    ∀ fs : FS, ((runBuckets R fs buckets).1).map resSummary =
      buckets.flatMap (fun b => bucketSummary R b.1 b.2) := by
  induction buckets with
  | nil => intro fs; simp [runBuckets]
  | cons b rest ih =>
    intro fs
    rcases b with ⟨folder, urls⟩
    rcases hL : R.launch folder with _ | msg
    · rcases hq : runUrls R folder ((fs.makedirs (shotsDir folder)).makedirs (htmlDir folder))
        urls with ⟨fs1, rs1⟩
      rcases hrest : runBuckets R fs1 rest with ⟨rs2, fs2, ls⟩
      simp only [runBuckets, hL, hq, hrest, List.flatMap_cons, List.map_append]
      have h1 := runUrls_summary R folder urls
        ((fs.makedirs (shotsDir folder)).makedirs (htmlDir folder))
      rw [hq] at h1
      simp only at h1
      rw [h1]
      have h2 := ih fs1
      rw [hrest] at h2
      simp only at h2
      rw [h2]
      simp [bucketSummary, hL]
    · rcases hrest : runBuckets R ((fs.makedirs (shotsDir folder)).makedirs (htmlDir folder))
        rest with ⟨rs2, fs2, ls⟩
      simp only [runBuckets, hL, hrest, List.flatMap_cons, List.map_append]
      have h2 := ih ((fs.makedirs (shotsDir folder)).makedirs (htmlDir folder))
      rw [hrest] at h2
      simp only at h2
      rw [h2]
      simp [bucketSummary, hL, resSummary, List.map_map, Function.comp]

/-- Total number of URLs across buckets. -/
def sumLens (gs : List (String × List String)) : Nat :=
  (gs.map (fun b => b.2.length)).sum

theorem sumLens_insertGroup (gs : List (String × List String)) (k : String) (v : String) :
    sumLens (insertGroup gs k v) = sumLens gs + 1 := by
  induction gs with
  | nil => simp [insertGroup, sumLens]
  | cons b rest ih =>
    rcases b with ⟨k1, vs⟩
    by_cases h : k1 = k
    · simp [insertGroup, h, sumLens]
      omega
    · simp only [insertGroup, if_neg h, sumLens, List.map_cons, List.sum_cons]
      have := ih
      simp only [sumLens] at this
      omega

theorem sumLens_groupByKey (key : String → String) (urls : List String) :
    sumLens (groupByKey key urls) = urls.length := by
  suffices h : ∀ acc : List (String × List String),
      sumLens (urls.foldl (fun a u => insertGroup a (key u) u) acc) = sumLens acc + urls.length by
    have := h []
    simpa [groupByKey, sumLens] using this
  induction urls with
  | nil => intro acc; simp
  | cons u rest ih =>
    intro acc
    simp only [List.foldl_cons, List.length_cons]
    rw [ih (insertGroup acc (key u) u), sumLens_insertGroup]
    omega

theorem runUrls_length (R : Renderer) (folder : String) (urls : List String) :
    ∀ fs : FS, ((runUrls R folder fs urls).2).length = urls.length := by
  intro fs
  have := runUrls_summary R folder urls fs
  have h2 := congrArg List.length this
  simpa using h2

theorem runBuckets_length (R : Renderer) (buckets : List (String × List String)) :
    ∀ fs : FS, ((runBuckets R fs buckets).1).length = sumLens buckets := by
  intro fs
  have := runBuckets_summary R buckets fs
  have h2 := congrArg List.length this
  simp only [List.length_map, List.length_flatMap] at h2
  rw [h2]
  simp only [sumLens]
  congr 1
  apply List.map_congr_left
  intro b _
  rcases hL : R.launch b.1 with _ | msg <;> simp [bucketSummary, hL]

/-- C2: for every URL list, `capture_urls` returns exactly one result per
input URL; the (url, outcome, message) summaries decompose bucket by
bucket, each bucket depending only on its own launch and navigations; and
a bucket whose session launch fails reports `error` with the launch
message for exactly its URLs, leaving every other bucket's summaries
unchanged. -/
theorem capture_count_and_bucket_isolation (R : Renderer) (fs : FS) (urls : List String) :
    (capture_urls R fs urls).1.length = urls.length ∧
    ((capture_urls R fs urls).1).map resSummary =
      (groupByKey folder_of urls).flatMap (fun b => bucketSummary R b.1 b.2) ∧
    (∀ folder bus msg, (folder, bus) ∈ groupByKey folder_of urls →
      R.launch folder = some msg →
      bucketSummary R folder bus = bus.map (fun v => (v, "error", some msg))) := by
  refine ⟨?_, ?_, ?_⟩
  · rw [capture_urls, runBuckets_length, sumLens_groupByKey]
  · exact runBuckets_summary R (groupByKey folder_of urls) fs
  · intro folder bus msg _ hmsg
    simp [bucketSummary, hmsg]

/-- C10: an empty URL list yields an empty result list, leaves the file
store untouched (no directory created, no artifact written) and opens no
rendering session. -/
theorem capture_empty (R : Renderer) (fs : FS) :
    capture_urls R fs [] = ([], fs, []) := rfl

end WebCap

/-- A concrete renderer whose session launch fails for `b.com` only. -/
def usRenderer : WebCap.Renderer :=
  ⟨fun d => if d = "b.com" then some ("launch failed") else none,
   fun _ => WebCap.Visit.ok ("<p/>") [0]⟩

/-- C2 witness: the bucket-isolation clause applied to a three-URL batch
spanning two origins where the `b.com` session launch fails. -/
theorem capture_count_and_bucket_isolation_witness :
    ("b.com", ["https://b.com/z"]) ∈ groupByKey WebCap.folder_of
        ["https://a.com/x", "https://a.com/y", "https://b.com/z"] ∧
    WebCap.bucketSummary usRenderer ("b.com") ["https://b.com/z"] =
      [("https://b.com/z", "error", some ("launch failed"))] := by
  constructor
  · decide
  · exact (WebCap.capture_count_and_bucket_isolation usRenderer FS.empty
      ["https://a.com/x", "https://a.com/y", "https://b.com/z"]).2.2
      ("b.com") ["https://b.com/z"] ("launch failed") (by decide) (by decide)

/-! ## Job lifecycle manager (`web_api.py`)

Statuses are the four strings the code writes into the `jobs` table.  The
state of one job is `Option JobStatus` (`none` = no row).  Each operation's
effect on a row is read off its SQL `UPDATE`/`INSERT`; `recover` is the
`init_db` startup sweep. -/

inductive JobStatus
  | queued | running | done | error
deriving DecidableEq, Repr

inductive JobEvent
  | create | markRunning | markDone | markError | recover
deriving DecidableEq, Repr

/-- Effect of one operation on one job row, from the SQL in `web_api.py`:
`create_job` inserts with status `'queued'`; `mark_running`, `mark_done`
and `mark_error` update the row unconditionally (`WHERE job_id=?` only);
the `init_db` recovery `UPDATE` is guarded by
`WHERE status IN ('queued','running')`.  An `UPDATE` of a missing row is a
no-op; `create` of an existing row cannot happen in a program trace (ids
are fresh UUIDs), so the existing row is kept. -/
def applyEvent (e : JobEvent) (st : Option JobStatus) : Option JobStatus :=
  match e, st with
  | .create, none => some .queued
  | .create, some s => some s
  | .markRunning, some _ => some .running
  | .markDone, some _ => some .done
  | .markError, some _ => some .error
  | .recover, some s =>
    if s = .queued ∨ s = .running then some .error else some s
  | _, none => none

/-- The persisted status after each event of a trace. -/
def statusTraceAux (st : Option JobStatus) : List JobEvent → List JobStatus
  | [] => []
  | e :: rest =>
    match applyEvent e st with
    | some s => s :: statusTraceAux (some s) rest
    | none => statusTraceAux none rest

def statusTrace (es : List JobEvent) : List JobStatus := statusTraceAux none es

/-- Zero or more process restarts (`init_db` sweeps) after the job's own
worker is gone. -/
inductive RecStar : List JobEvent → Prop
  | nil : RecStar []
  | cons (t : List JobEvent) : RecStar t → RecStar (JobEvent.recover :: t)

/-- What can follow `mark_running` for one job: the worker finishes with
`mark_done` or `mark_error` (then only restart sweeps), or the process
dies while running (only restart sweeps). -/
inductive AfterRunning : List JobEvent → Prop
  | idle : AfterRunning []
  | finishedDone (t : List JobEvent) : RecStar t → AfterRunning (JobEvent.markDone :: t)
  | finishedErr (t : List JobEvent) : RecStar t → AfterRunning (JobEvent.markError :: t)
  | crashedRunning (t : List JobEvent) : RecStar t → AfterRunning (JobEvent.recover :: t)

/-- What can follow `create_job`: nothing yet, a process death before
pickup (then only restart sweeps — the job is never resubmitted), or the
single worker picking it up (`run_capture_job` calls `mark_running`
first). -/
inductive AllowedRest : List JobEvent → Prop
  | idle : AllowedRest []
  | crashedQueued (t : List JobEvent) : RecStar t → AllowedRest (JobEvent.recover :: t)
  | started (t : List JobEvent) : AfterRunning t → AllowedRest (JobEvent.markRunning :: t)

/-- The event sequences `web_api.py` can generate for one job: created by
`start_capture` (which submits it to the executor exactly once), then
`AllowedRest`. -/
inductive Allowed : List JobEvent → Prop
  | mk (t : List JobEvent) : AllowedRest t → Allowed (JobEvent.create :: t)

def rank : JobStatus → Nat
  | .queued => 0
  | .running => 1
  | .done => 2
  | .error => 2

def isTerminal : JobStatus → Bool
  | .done => true
  | .error => true
  | _ => false

/-- A status sequence with no backward transition: ranks never decrease and
a terminal status is never left. -/
def okSeq : List JobStatus → Bool
  | [] => true
  | [_] => true
  | a :: b :: t =>
    (decide (rank a ≤ rank b) && (!isTerminal a || decide (b = a))) && okSeq (b :: t)

theorem statusTraceAux_recStar (s : JobStatus) (hterm : isTerminal s = true) :
    ∀ t : List JobEvent, RecStar t → statusTraceAux (some s) t = List.replicate t.length s := by
  intro t ht
  induction ht with
  | nil => simp [statusTraceAux]
  | cons t2 h2 ih =>
    have hs : applyEvent JobEvent.recover (some s) = some s := by
      cases s <;> simp_all [applyEvent, isTerminal]
    simp [statusTraceAux, hs, ih, List.replicate]

theorem okSeq_self_replicate (s : JobStatus) :
    ∀ n : Nat, okSeq (s :: List.replicate n s) = true := by
  intro n
  induction n with
  | zero => simp [okSeq]
  | succ m ih => simp [List.replicate, okSeq, ih]

theorem okSeq_two (a b : JobStatus) (h1 : rank a ≤ rank b) (h2 : isTerminal a = false)
    (n : Nat) : okSeq (a :: b :: List.replicate n b) = true := by
  have := okSeq_self_replicate b n
  simp [okSeq, h1, h2, this]

theorem okSeq_three (a b c : JobStatus) (h1 : rank a ≤ rank b) (h2 : isTerminal a = false)
    (h3 : rank b ≤ rank c) (h4 : isTerminal b = false) (n : Nat) :
    okSeq (a :: b :: c :: List.replicate n c) = true := by
  have := okSeq_self_replicate c n
  simp [okSeq, h1, h2, h3, h4, this]

/-- C3: every job-status sequence the lifecycle manager can persist starts
at `queued`, never decreases in rank (queued < running < done/error) and
never leaves a terminal status: it is a subsequence of
queued, running, done-or-error. -/
theorem job_status_monotone (es : List JobEvent) (h : Allowed es) :
    (statusTrace es).head? = some JobStatus.queued ∧ okSeq (statusTrace es) = true := by
  rcases h with ⟨t, hrest⟩
  rcases hrest with _ | ⟨t2, hrec⟩ | ⟨t2, hrun⟩
  · exact ⟨rfl, rfl⟩
  · refine ⟨rfl, ?_⟩
    have hrep := statusTraceAux_recStar JobStatus.error rfl t2 hrec
    have h1 : applyEvent JobEvent.create none = some JobStatus.queued := by decide
    have h2 : applyEvent JobEvent.recover (some JobStatus.queued) = some JobStatus.error := by
      decide
    simp only [statusTrace, statusTraceAux, h1, h2, hrep]
    exact okSeq_two JobStatus.queued JobStatus.error (by decide) (by decide) t2.length
  · rcases hrun with _ | ⟨t3, hrec⟩ | ⟨t3, hrec⟩ | ⟨t3, hrec⟩
    · exact ⟨rfl, rfl⟩
    · refine ⟨rfl, ?_⟩
      have hrep := statusTraceAux_recStar JobStatus.done rfl t3 hrec
      have h1 : applyEvent JobEvent.create none = some JobStatus.queued := by decide
      have h2 : applyEvent JobEvent.markRunning (some JobStatus.queued) =
        some JobStatus.running := by decide
      have h3 : applyEvent JobEvent.markDone (some JobStatus.running) =
        some JobStatus.done := by decide
      simp only [statusTrace, statusTraceAux, h1, h2, h3, hrep]
      exact okSeq_three JobStatus.queued JobStatus.running JobStatus.done
        (by decide) (by decide) (by decide) (by decide) t3.length
    · refine ⟨rfl, ?_⟩
      have hrep := statusTraceAux_recStar JobStatus.error rfl t3 hrec
      have h1 : applyEvent JobEvent.create none = some JobStatus.queued := by decide
      have h2 : applyEvent JobEvent.markRunning (some JobStatus.queued) =
        some JobStatus.running := by decide
      have h3 : applyEvent JobEvent.markError (some JobStatus.running) =
        some JobStatus.error := by decide
      have h4 : applyEvent JobEvent.recover (some JobStatus.running) =
        some JobStatus.error := by decide
      simp only [statusTrace, statusTraceAux, h1, h2, h3, h4, hrep]
      exact okSeq_three JobStatus.queued JobStatus.running JobStatus.error
        (by decide) (by decide) (by decide) (by decide) t3.length
    · refine ⟨rfl, ?_⟩
      have hrep := statusTraceAux_recStar JobStatus.error rfl t3 hrec
      have h1 : applyEvent JobEvent.create none = some JobStatus.queued := by decide
      have h2 : applyEvent JobEvent.markRunning (some JobStatus.queued) =
        some JobStatus.running := by decide
      have h3 : applyEvent JobEvent.markError (some JobStatus.running) =
        some JobStatus.error := by decide
      have h4 : applyEvent JobEvent.recover (some JobStatus.running) =
        some JobStatus.error := by decide
      simp only [statusTrace, statusTraceAux, h1, h2, h3, h4, hrep]
      exact okSeq_three JobStatus.queued JobStatus.running JobStatus.error
        (by decide) (by decide) (by decide) (by decide) t3.length

/-- C3 witness: the happy-path trace create → running → done. -/
theorem job_status_monotone_witness :
    Allowed [JobEvent.create, JobEvent.markRunning, JobEvent.markDone] ∧
    (statusTrace [JobEvent.create, JobEvent.markRunning, JobEvent.markDone]).head? =
      some JobStatus.queued ∧
    okSeq (statusTrace [JobEvent.create, JobEvent.markRunning, JobEvent.markDone]) = true := by
  have hall : Allowed [JobEvent.create, JobEvent.markRunning, JobEvent.markDone] :=
    Allowed.mk _ (AllowedRest.started _ (AfterRunning.finishedDone _ RecStar.nil))
  exact ⟨hall, job_status_monotone _ hall⟩

/-! ## Job submission (`web_api.py`: `validate_urls`, `start_capture`) -/

/-- A JSON value as it may arrive in the request body's `urls` field. -/
inductive JVal
  | jstr (s : String)
  | jnum (n : Int)
  | jbool (b : Bool)
  | jlist (l : List JVal)
  | jnull

/-- The entry loop of `validate_urls`: every element must be a string that
is nonempty after stripping; stripped entries are collected. -/
def validateList : List JVal → List String → Except String (List String)
  | [], acc => .ok acc.reverse
  | .jstr s :: rest, acc =>
    if strTrim s = "" then .error "all urls must be non-empty strings"
    else validateList rest (strTrim s :: acc)
  | _ :: _, _ => .error "all urls must be non-empty strings"

/-- `validate_urls(urls)`: reject non-lists, then validate entries. -/
def validate_urls : JVal → Except String (List String)
  | .jlist us => validateList us []
  | _ => .error "provide a list of urls"

/-- What the `/capture` route does with a submission, by outcome: a 400
validation error (no job created), a 500 `urls.json` load error (no job
created), or a job created in status queued (202 with its id). -/
inductive CaptureResp
  | invalidInput (msg : String)
  | urlLoadError (msg : String)
  | accepted (jobUrls : List String)
deriving DecidableEq, Repr

/-- `start_capture()`: validate `urls` when present; *when the validated
list is empty or absent, fall back to loading `urls.json`* (the
`if not urls` branch); then `create_job` + `executor.submit`.
`loadUrls` is the opaque outcome of `web_capture.load_urls(URLS_PATH)`. -/
def start_capture (bodyUrls : Option JVal) (loadUrls : Except String (List String)) :
    CaptureResp :=
  match bodyUrls with
  | some jv =>
    match validate_urls jv with
    | .error e => .invalidInput e
    | .ok cleaned =>
      if cleaned.isEmpty then
        match loadUrls with
        | .error e => .urlLoadError e
        | .ok us => .accepted us
      else .accepted cleaned
  | none =>
    match loadUrls with
    | .error e => .urlLoadError e
    | .ok us => .accepted us

/-- C4 counterexample: submitting an *empty* URL list is not rejected with
a validation error — the route falls back to `urls.json` and creates a job
from it, contradicting the claim that an empty collection is rejected
synchronously with no job record. -/
theorem start_capture_empty_list_not_rejected :
    start_capture (some (JVal.jlist [])) (Except.ok ["https://fallback.example"]) =
      CaptureResp.accepted ["https://fallback.example"] ∧
    (∀ msg : String, start_capture (some (JVal.jlist []))
      (Except.ok ["https://fallback.example"]) ≠ CaptureResp.invalidInput msg) := by
  constructor
  · rfl
  · intro msg h
    simp [start_capture, validate_urls, validateList] at h

theorem validateList_ok_iff (us : List JVal) :
    ∀ acc : List String, (validateList us acc).isOk = true ↔
      ∀ v ∈ us, ∃ s, v = JVal.jstr s ∧ strTrim s ≠ "" := by
  induction us with
  | nil => intro acc; simp [validateList, Except.isOk, Except.toBool]
  | cons v rest ih =>
    intro acc
    cases v with
    | jstr s =>
      by_cases h : strTrim s = ""
      · simp [validateList, h, Except.isOk, Except.toBool]
      · simp only [validateList, if_neg h, ih]
        constructor
        · intro hall
          intro w hw
          rcases List.mem_cons.mp hw with h1 | h2
          · exact ⟨s, h1, h⟩
          · exact hall w h2
        · intro hall w hw
          exact hall w (List.mem_cons_of_mem _ hw)
    | jnum n =>
      simp [validateList, Except.isOk, Except.toBool]
    | jbool b =>
      simp [validateList, Except.isOk, Except.toBool]
    | jlist l =>
      simp [validateList, Except.isOk, Except.toBool]
    | jnull =>
      simp [validateList, Except.isOk, Except.toBool]

/-- C4 as amended: a non-list payload or one with a non-string or
empty-after-strip entry is rejected with a validation error and no job is
created; a valid *nonempty* list creates a queued job carrying the
stripped entries; but a valid *empty* list is not rejected — the route
falls back to the `urls.json` loader (creating a job from its contents, or
reporting a load error with no job). -/
theorem start_capture_validation :
    (∀ l : List JVal, (validate_urls (JVal.jlist l)).isOk = true ↔
      ∀ v ∈ l, ∃ s, v = JVal.jstr s ∧ strTrim s ≠ "") ∧
    (∀ jv : JVal, ∀ load : Except String (List String), ∀ e : String,
      validate_urls jv = .error e → start_capture (some jv) load = .invalidInput e) ∧
    (∀ jv : JVal, ∀ load : Except String (List String), ∀ cleaned : List String,
      validate_urls jv = .ok cleaned → cleaned ≠ [] →
      start_capture (some jv) load = .accepted cleaned) ∧
    (∀ load : Except String (List String),
      start_capture (some (JVal.jlist [])) load =
        match load with
        | .error e => .urlLoadError e
        | .ok us => .accepted us) := by
  refine ⟨?_, ?_, ?_, ?_⟩
  · intro l
    exact validateList_ok_iff l []
  · intro jv load e hval
    simp [start_capture, hval]
  · intro jv load cleaned hval hne
    simp [start_capture, hval, hne]
  · intro load
    cases load <;> rfl

/-- C4 witness: a non-string entry is rejected; a whitespace-padded valid
entry is stripped and accepted. -/
theorem start_capture_validation_witness :
    validate_urls (JVal.jlist [JVal.jnum 3]) = Except.error "all urls must be non-empty strings" ∧
    start_capture (some (JVal.jlist [JVal.jnum 3])) (Except.ok []) =
      CaptureResp.invalidInput "all urls must be non-empty strings" ∧
    validate_urls (JVal.jlist [JVal.jstr "  https://x.example "]) =
      Except.ok ["https://x.example"] ∧
    start_capture (some (JVal.jlist [JVal.jstr "  https://x.example "])) (Except.ok []) =
      CaptureResp.accepted ["https://x.example"] := by
  refine ⟨rfl, ?_, rfl, ?_⟩
  · exact start_capture_validation.2.1 (JVal.jlist [JVal.jnum 3]) (Except.ok [])
      "all urls must be non-empty strings" rfl
  · exact start_capture_validation.2.2.1 (JVal.jlist [JVal.jstr "  https://x.example "])
      (Except.ok []) ["https://x.example"] rfl (by decide)

/-! ## Crash recovery sweep of `init_db` (`web_api.py` lines 70–81) -/

/-- One persisted job row (the fields the recovery sweep touches). -/
structure JobRow where
  job_id : String
  status : JobStatus
  error_text : Option String
  updated_at : Nat
deriving DecidableEq, Repr

/-- The fixed message the sweep writes. -/
def recoverMsg : String := "service restarted before completion"

/-- The `init_db` startup `UPDATE`: every row whose status is in
(queued, running) becomes `error` with `recoverMsg`; other rows are
untouched.  `ts` is the sweep's `now_utc_iso()` timestamp. -/
def init_db_recover (ts : Nat) (rows : List JobRow) : List JobRow :=
  rows.map (fun r =>
    if r.status = .queued ∨ r.status = .running then
      { r with status := JobStatus.error, error_text := some recoverMsg, updated_at := ts }
    else r)

/-- C9 counterexample: the sweep's fixed message is
"service restarted before completion", not the claimed
"interrupted before completion". -/
theorem init_db_recover_message_differs :
    init_db_recover 5 [⟨"j", JobStatus.queued, none, 0⟩] =
      [⟨"j", JobStatus.error, some "service restarted before completion", 5⟩] ∧
    (¬ init_db_recover 5 [⟨"j", JobStatus.queued, none, 0⟩] =
      [⟨"j", JobStatus.error, some "interrupted before completion", 5⟩]) := by
  constructor
  · rfl
  · decide

/-- C9 as amended: on process start every job found queued or running is
forcibly transitioned to error with the fixed message
"service restarted before completion", and jobs already terminal are left
unchanged (afterwards no row is queued or running). -/
theorem init_db_recover_spec (ts : Nat) (rows : List JobRow) :
    (∀ r ∈ rows, (r.status = .queued ∨ r.status = .running) →
      { r with status := JobStatus.error, error_text := some recoverMsg, updated_at := ts } ∈
        init_db_recover ts rows) ∧
    (∀ r ∈ rows, (r.status = .done ∨ r.status = .error) → r ∈ init_db_recover ts rows) ∧
    (∀ r2 ∈ init_db_recover ts rows, r2.status ≠ .queued ∧ r2.status ≠ .running) ∧
    (init_db_recover ts rows).length = rows.length := by
  refine ⟨?_, ?_, ?_, by simp [init_db_recover]⟩
  · intro r hr hq
    apply List.mem_map.mpr
    exact ⟨r, hr, by simp [hq]⟩
  · intro r hr ht
    apply List.mem_map.mpr
    refine ⟨r, hr, ?_⟩
    have hnq : ¬(r.status = JobStatus.queued ∨ r.status = JobStatus.running) := by
      rcases ht with h | h <;> simp [h]
    simp [hnq]
  · intro r2 hr2
    rcases List.mem_map.mp hr2 with ⟨r, _, hmap⟩
    by_cases hq : r.status = JobStatus.queued ∨ r.status = JobStatus.running
    · rw [if_pos hq] at hmap
      rw [← hmap]
      simp
    · rw [if_neg hq] at hmap
      rw [← hmap]
      push_neg at hq
      exact ⟨hq.1, hq.2⟩

/-- C9 witness: the amended sweep applied to one queued and one done row. -/
theorem init_db_recover_spec_witness :
    (⟨"a", JobStatus.error, some recoverMsg, 7⟩ : JobRow) ∈
      init_db_recover 7 [⟨"a", JobStatus.queued, none, 0⟩, ⟨"b", JobStatus.done, none, 1⟩] ∧
    (⟨"b", JobStatus.done, none, 1⟩ : JobRow) ∈
      init_db_recover 7 [⟨"a", JobStatus.queued, none, 0⟩, ⟨"b", JobStatus.done, none, 1⟩] := by
  constructor
  · exact (init_db_recover_spec 7 _).1 ⟨"a", JobStatus.queued, none, 0⟩ (by decide)
      (Or.inl rfl)
  · exact (init_db_recover_spec 7 _).2.1 ⟨"b", JobStatus.done, none, 1⟩ (by decide)
      (Or.inl rfl)

/-! ## Sitemap resolver (`sitemap_scan.py`)

The HTTP transport is an oracle `Fetcher` whose `.error` models a raised
`requests.RequestException`; the gzip library is an oracle `Gunzip` whose
`.error` models a decompression exception.  The resolver itself is written
in the `Except` monad: an oracle failure not caught by the code's
`try/except` structure would surface as `.error`, so totality theorems
certify the catch placement.  `xmlRootTag` models `ET.fromstring` root-tag
extraction (`none` = parse failure): it skips whitespace and
prolog/comment/doctype blocks, requires `<` and reads the element name,
reduced to its local part as the code's namespace strip does. -/

abbrev Fetcher := String → Except String (Nat × String)

abbrev Gunzip := String → Except String String

namespace SitemapScan

def COMMON_SITEMAP_PATHS : List String :=
  ["/sitemap.xml", "/sitemap.xml.gz", "/sitemap_index.xml", "/sitemap_index.xml.gz",
   "/sitemap-index.xml", "/sitemap-index.xml.gz", "/sitemapindex.xml", "/sitemaps.xml",
   "/sitemap1.xml", "/sitemap-1.xml", "/sitemap_1.xml", "/sitemap_1.xml.gz",
   "/sitemap-news.xml", "/news-sitemap.xml", "/post-sitemap.xml", "/page-sitemap.xml",
   "/product-sitemap.xml", "/category-sitemap.xml", "/tag-sitemap.xml", "/wp-sitemap.xml",
   "/sitemap/sitemap.xml", "/sitemap/sitemap-index.xml", "/sitemap/sitemap_index.xml",
   "/sitemap_index_1.xml", "/sitemap.xml?no_cache=1", "/sitemap.txt"]

/-- `normalize_base(url)`: strip, require nonempty, default to https,
require a host, rebuild scheme://netloc. -/
def normalize_base (url : String) : Except String String :=
  let url := strTrim url
  if url = "" then .error "empty url"
  else
    let url :=
      if strStartsWith url ("http://") || strStartsWith url ("https://") then url
      else ("https://") ++ url
    let p := urlparse url
    if p.netloc = "" then .error "invalid URL: missing host"
    else .ok (p.scheme ++ ("://") ++ p.netloc)

/-- `fetch(url)`: the `try/except RequestException` wrapper around the
transport — a transport failure degrades to `(0, empty)`. -/
def fetchE (F : Fetcher) (url : String) : Except String (Nat × String) :=
  match F url with
  | .ok r => .ok r
  | .error _ => .ok (0, "")

def gzMagic : String := String.mk [Char.ofNat 31, Char.ofNat 139]

/-- `decompress_if_needed(data)`: gunzip gzip-framed payloads, swallowing
decompression failures (`except: pass` returns the raw data). -/
def decompress_if_needed (gz : Gunzip) (data : String) : String :=
  if data = "" then ""
  else if strStartsWith data gzMagic then
    match gz data with
    | .ok d => d
    | .error _ => data
  else data

/-- Skip leading whitespace and `<?...?>` / `<!...>` prolog blocks. -/
def xmlSkipPrologAux : Nat → List Char → List Char
  | 0, cs => cs
  | fuel + 1, cs =>
    let cs2 := cs.dropWhile isPyWs
    if cs2.take 2 = ['<', '?'] || cs2.take 2 = ['<', '!'] then
      xmlSkipPrologAux fuel ((cs2.dropWhile (fun c => c ≠ '>')).drop 1)
    else cs2

/-- Root-element name of an XML document, local part only (`none` models
an `ET.fromstring` failure on content that does not start with a tag). -/
def xmlRootTag (s : String) : Option String :=
  match xmlSkipPrologAux s.data.length s.data with
  | [] => none
  | c :: rest =>
    if c = '<' then
      let name := rest.takeWhile (fun ch => !(isPyWs ch) && ch ≠ '>' && ch ≠ '/')
      if name.isEmpty then none
      else some (String.mk ((splitChars [':'] name).getLastD name))
    else none

/-- `parse_root_type(xml_bytes)`: `sitemapindex`, `urlset`, or `none`. -/
def parse_root_type (data : String) : Option String :=
  match xmlRootTag data with
  | none => none
  | some tag =>
    if tag = "sitemapindex" then some "sitemapindex"
    else if tag = "urlset" then some "urlset"
    else none

/-- `extract_sitemaps_from_index`: every nonempty trimmed `<loc>` text, in
document order (string-scan model of the ElementTree descendant walk). -/
def extract_sitemaps_from_index (data : String) : List String :=
  ((strSplitOn data ("<loc>")).drop 1).filterMap (fun seg =>
    match strSplitOn seg ("</loc>") with
    | t :: _ =>
      let v := strTrim t
      if v = "" then none else some v
    | [] => none)

/-- `get_sitemaps_from_root(root_url)`; an uncaught failure of the fetch
wrapper would propagate as `.error`. -/
def get_sitemaps_from_root (F : Fetcher) (gz : Gunzip) (root_url : String) :
    Except String (Option (String × String × List String)) :=
  match fetchE F root_url with
  | .error e => .error e
  | .ok (status, body) =>
    if status ≠ 200 ∨ body = "" then .ok none
    else
      let data := decompress_if_needed gz body
      match parse_root_type data with
      | some t =>
        if t = "urlset" then .ok (some (root_url, "urlset", [root_url]))
        else .ok (some (root_url, "sitemapindex", extract_sitemaps_from_index data))
      | none => .ok none

/-- One robots.txt line: the declared URL of a (case-insensitive)
`Sitemap:` directive whose value is nonempty. -/
def robots_line_sm (line : String) : Option String :=
  if strStartsWith (strToLower line) ("sitemap:") then
    match splitOnce line (":") with
    | (_, some after) =>
      let sm := strTrim after
      if sm = "" then none else some sm
    | (_, none) => none
  else none

/-- The scanning loop of `find_robots_sitemap`: `return sm` on the first
matching line with a nonempty value. -/
def scanRobotsLines : List String → Option String
  | [] => none
  | l :: rest =>
    match robots_line_sm l with
    | some sm => some sm
    | none => scanRobotsLines rest

/-- `find_robots_sitemap(base)`. -/
def find_robots_sitemap (F : Fetcher) (base : String) : Except String (Option String) :=
  match fetchE F (base ++ ("/robots.txt")) with
  | .error e => .error e
  | .ok (status, body) =>
    if status ≠ 200 ∨ body = "" then .ok none
    else .ok (scanRobotsLines (toLines body))

/-- The loop body of `fallback_common_root`. -/
def fallbackScan (F : Fetcher) (gz : Gunzip) (base : String) :
    List String → Except String (Option String)
  | [] => .ok none
  | path :: rest =>
    match fetchE F (base ++ path) with
    | .error e => .error e
    | .ok (status, body) =>
      if status = 200 ∧ body ≠ "" then
        match parse_root_type (decompress_if_needed gz body) with
        | some _ => .ok (some (base ++ path))
        | none => fallbackScan F gz base rest
      else fallbackScan F gz base rest

/-- `fallback_common_root(base)`. -/
def fallback_common_root (F : Fetcher) (gz : Gunzip) (base : String) :
    Except String (Option String) :=
  fallbackScan F gz base COMMON_SITEMAP_PATHS

inductive ResolveOut
  | invalidInput (msg : String)
  | found (via root_sitemap root_type : String) (sitemaps : List String)
  | noSitemap (base : String)
deriving DecidableEq, Repr

/-- The common-path fallback stage of `main()`. -/
def resolveFallback (F : Fetcher) (gz : Gunzip) (base : String) :
    Except String ResolveOut :=
  match fallback_common_root F gz base with
  | .error e => .error e
  | .ok none => .ok (.noSitemap base)
  | .ok (some url) =>
    match get_sitemaps_from_root F gz url with
    | .error e => .error e
    | .ok (some (u, t, ss)) => .ok (.found "common" u t ss)
    | .ok none => .ok (.noSitemap base)

/-- The resolution logic of `main()` (arg parsing and printing aside):
robots directive first, common-path fallback when robots is missing or its
candidate does not parse as a sitemap. -/
def resolve (F : Fetcher) (gz : Gunzip) (rawBase : String) : Except String ResolveOut :=
  match normalize_base rawBase with
  | .error e => .ok (.invalidInput e)
  | .ok base =>
    match find_robots_sitemap F base with
    | .error e => .error e
    | .ok (some sm) =>
      match get_sitemaps_from_root F gz sm with
      | .error e => .error e
      | .ok (some (u, t, ss)) => .ok (.found "robots" u t ss)
      | .ok none => resolveFallback F gz base
    | .ok none => resolveFallback F gz base

/-- A robots.txt body declaring two sitemaps. -/
def twoSitemapRobots : String :=
  "User-agent: *\nSitemap: https://e.com/s1.xml\nSitemap: https://e.com/s2.xml"

/-- C5 counterexample: for a robots.txt with two `Sitemap:` directives the
code records only the first declared URL — the second is not recorded
anywhere (the scan returns at the first match), contradicting the claim
that every matching directive is recorded. -/
theorem robots_first_directive_only :
    find_robots_sitemap (fun _ => Except.ok (200, twoSitemapRobots)) ("https://e.com") =
      Except.ok (some ("https://e.com/s1.xml")) ∧
    ("https://e.com/s2.xml" ∉
      (scanRobotsLines (toLines twoSitemapRobots)).toList) := by
  constructor
  · rfl
  · decide

theorem scanRobotsLines_head (ls : List String) :
    scanRobotsLines ls = (ls.filterMap robots_line_sm).head? := by
  induction ls with
  | nil => rfl
  | cons l rest ih =>
    cases h : robots_line_sm l with
    | none => simp [scanRobotsLines, h, ih]
    | some sm => simp [scanRobotsLines, h]

/-- C5 as amended: only the *first* `Sitemap:` directive (case-insensitive,
nonempty value) of a successfully fetched robots.txt is recorded; later
directives are ignored, and a non-200 or empty response records nothing. -/
theorem find_robots_sitemap_first_only (F : Fetcher) (base : String) :
    (∀ ls : List String, scanRobotsLines ls = (ls.filterMap robots_line_sm).head?) ∧
    (∀ status : Nat, ∀ body : String, F (base ++ ("/robots.txt")) = .ok (status, body) →
      find_robots_sitemap F base =
        .ok (if status ≠ 200 ∨ body = "" then none
             else ((toLines body).filterMap robots_line_sm).head?)) ∧
    (∀ e : String, F (base ++ ("/robots.txt")) = .error e →
      find_robots_sitemap F base = .ok none) := by
  refine ⟨scanRobotsLines_head, ?_, ?_⟩
  · intro status body hF
    by_cases h : status ≠ 200 ∨ body = ""
    · simp [find_robots_sitemap, fetchE, hF, h]
    · simp [find_robots_sitemap, fetchE, hF, h, scanRobotsLines_head]
  · intro e hF
    simp [find_robots_sitemap, fetchE, hF]

/-- C5 witness: the amended characterization applied to the two-directive
robots.txt — only the first URL is reported. -/
theorem find_robots_sitemap_first_only_witness :
    find_robots_sitemap (fun _ => Except.ok (200, twoSitemapRobots)) ("https://e.com") =
      Except.ok (if (200 : Nat) ≠ 200 ∨ twoSitemapRobots = "" then none
        else ((toLines twoSitemapRobots).filterMap robots_line_sm).head?) :=
  (find_robots_sitemap_first_only (fun _ => Except.ok (200, twoSitemapRobots))
    ("https://e.com")).2.1 200 twoSitemapRobots rfl

/-- Modelled from the spec (for comparison only): the plain-text fallback
classification the spec describes — the first several (five) non-empty
lines are all well-formed absolute URLs.  No such heuristic exists in
`sitemap_scan.py`. -/
def spec_plain_list_ok (body : String) : Bool :=
  let ls := ((toLines body).filter (fun l => l ≠ "")).take 5
  !ls.isEmpty && ls.all (fun l => strStartsWith l ("http://") || strStartsWith l ("https://"))

/-- The per-candidate classification actually performed by
`fallback_common_root` / `get_sitemaps_from_root`: HTTP 200, nonempty
body, decompressed content whose XML root is `urlset` or `sitemapindex`. -/
def candidate_is_sitemap (gz : Gunzip) (status : Nat) (body : String) : Bool :=
  decide (status = 200) && decide (body ≠ "") &&
    (parse_root_type (decompress_if_needed gz body)).isSome

/-- Candidate classification of a fetched URL. -/
def respSitemap (F : Fetcher) (gz : Gunzip) (url : String) : Bool :=
  match fetchE F url with
  | .ok (status, body) => candidate_is_sitemap gz status body
  | .error _ => false

/-- A body that satisfies the spec's plain-text heuristic. -/
def plainListBody : String := "https://a.example/x\nhttps://a.example/y"

/-- C6 counterexample: a 200 plain-text body whose lines are all absolute
URLs satisfies the spec's plain-list test yet is classified
not-a-sitemap — `sitemap_scan.py` has no plain-text fallback. -/
theorem plain_text_sitemap_not_classified :
    spec_plain_list_ok plainListBody = true ∧
    candidate_is_sitemap (fun _ => Except.error ("gz")) 200 plainListBody = false := by
  constructor
  · rfl
  · rfl

theorem xmlRootTag_none_of_not_lt (d : String) (c : Char) (rest : List Char)
    (h : d.data.dropWhile isPyWs = c :: rest) (hc : c ≠ '<') : xmlRootTag d = none := by
  obtain ⟨n, hn⟩ : ∃ n, d.data.length = n + 1 := by
    cases hd : d.data with
    | nil => rw [hd] at h; simp at h
    | cons a t => exact ⟨t.length, by simp [hd]⟩
  have hskip : xmlSkipPrologAux d.data.length d.data = c :: rest := by
    rw [hn]
    unfold xmlSkipPrologAux
    simp only [h]
    rw [if_neg ?cond]
    case cond =>
      intro hcond
      simp only [Bool.or_eq_true] at hcond
      rcases hcond with h1 | h1 <;> (simp at h1; exact hc h1.1)
  unfold xmlRootTag
  rw [hskip]
  simp [hc]

theorem candidate_not_sitemap_of_not_lt (gz : Gunzip) (status : Nat) (body : String)
    (c : Char) (rest : List Char)
    (h : (decompress_if_needed gz body).data.dropWhile isPyWs = c :: rest) (hc : c ≠ '<') :
    candidate_is_sitemap gz status body = false := by
  have hroot := xmlRootTag_none_of_not_lt _ c rest h hc
  simp [candidate_is_sitemap, parse_root_type, hroot]

theorem fallbackScan_find (F : Fetcher) (gz : Gunzip) (base : String) (paths : List String) :
    fallbackScan F gz base paths =
      Except.ok ((paths.map (fun p => base ++ p)).find? (respSitemap F gz)) := by
  induction paths with
  | nil => rfl
  | cons p rest ih =>
    rcases hF : F (base ++ p) with e | ⟨status, body⟩
    · have hresp : respSitemap F gz (base ++ p) = false := by
        simp [respSitemap, fetchE, hF, candidate_is_sitemap]
      simp [fallbackScan, fetchE, hF, List.find?, hresp, ih]
    · by_cases h200 : status = 200 ∧ body ≠ ""
      · cases hpr : parse_root_type (decompress_if_needed gz body) with
        | some t =>
          have hresp : respSitemap F gz (base ++ p) = true := by
            simp [respSitemap, fetchE, hF, candidate_is_sitemap, h200.1, h200.2, hpr]
          simp [fallbackScan, fetchE, hF, h200, hpr, List.find?, hresp]
        | none =>
          have hresp : respSitemap F gz (base ++ p) = false := by
            simp [respSitemap, fetchE, hF, candidate_is_sitemap, hpr]
          simp [fallbackScan, fetchE, hF, h200, hpr, List.find?, hresp, ih]
      · have hcand : candidate_is_sitemap gz status body = false := by
          rcases not_and_or.mp h200 with h | h
          · simp [candidate_is_sitemap, h]
          · have hb : body = "" := not_ne_iff.mp h
            simp [candidate_is_sitemap, hb]
        have hresp : respSitemap F gz (base ++ p) = false := by
          simp [respSitemap, fetchE, hF, hcand]
        simp [fallbackScan, fetchE, hF, h200, List.find?, hresp, ih]

/-- C6 as amended: a candidate is classified a sitemap iff its HTTP status
is 200, its body is nonempty and the (gzip-decompressed if framed) content
has XML root `urlset` or `sitemapindex`; the common-path probe returns the
first candidate passing exactly that test; and content whose first
non-whitespace character is not `<` — in particular any plain-text URL
list — is never classified a sitemap. -/
theorem candidate_classification (F : Fetcher) (gz : Gunzip) (base : String) :
    (fallback_common_root F gz base =
      Except.ok ((COMMON_SITEMAP_PATHS.map (fun p => base ++ p)).find? (respSitemap F gz))) ∧
    (∀ status : Nat, ∀ body : String, candidate_is_sitemap gz status body = true ↔
      (status = 200 ∧ body ≠ "" ∧
        (parse_root_type (decompress_if_needed gz body)).isSome = true)) ∧
    (∀ status : Nat, ∀ body : String, ∀ c : Char, ∀ rest : List Char,
      (decompress_if_needed gz body).data.dropWhile isPyWs = c :: rest → c ≠ '<' →
      candidate_is_sitemap gz status body = false) := by
  refine ⟨fallbackScan_find F gz base COMMON_SITEMAP_PATHS, ?_, ?_⟩
  · intro status body
    simp [candidate_is_sitemap, and_assoc]
  · intro status body c rest h hc
    exact candidate_not_sitemap_of_not_lt gz status body c rest h hc

/-- C6 witness: the classification clauses at concrete inputs — a fetcher
answering 404 everywhere selects no common path, and the plain URL list is
rejected because its first character is `h`, not `<`. -/
theorem candidate_classification_witness :
    fallback_common_root (fun _ => Except.ok (404, "x")) (fun _ => Except.error ("gz"))
        ("https://e.com") =
      Except.ok ((COMMON_SITEMAP_PATHS.map (fun p => ("https://e.com") ++ p)).find?
        (respSitemap (fun _ => Except.ok (404, "x")) (fun _ => Except.error ("gz")))) ∧
    candidate_is_sitemap (fun _ => Except.error ("gz")) 200 plainListBody = false := by
  constructor
  · exact (candidate_classification (fun _ => Except.ok (404, "x"))
      (fun _ => Except.error ("gz")) ("https://e.com")).1
  · exact (candidate_classification (fun _ => Except.ok (404, "x"))
      (fun _ => Except.error ("gz")) ("https://e.com")).2.2 200 plainListBody 'h'
      ((plainListBody.data.dropWhile isPyWs).tail) (by rfl) (by decide)

theorem exists_ok_of_isOk (x : Except String ResolveOut) (h : x.isOk = true) :
    ∃ v, x = .ok v := by
  cases x with
  | error e => simp [Except.isOk, Except.toBool] at h
  | ok v => exact ⟨v, rfl⟩

theorem find_robots_sitemap_isOk (F : Fetcher) (base : String) :
    ∃ v, find_robots_sitemap F base = .ok v := by
  rcases hF : F (base ++ ("/robots.txt")) with e | ⟨status, body⟩
  · exact ⟨none, by simp [find_robots_sitemap, fetchE, hF]⟩
  · by_cases h : status ≠ 200 ∨ body = ""
    · exact ⟨none, by simp [find_robots_sitemap, fetchE, hF, h]⟩
    · exact ⟨scanRobotsLines (toLines body), by simp [find_robots_sitemap, fetchE, hF, h]⟩

theorem get_sitemaps_from_root_isOk (F : Fetcher) (gz : Gunzip) (u : String) :
    ∃ v, get_sitemaps_from_root F gz u = .ok v := by
  rcases hF : F u with e | ⟨status, body⟩
  · exact ⟨none, by simp [get_sitemaps_from_root, fetchE, hF]⟩
  · by_cases h : status ≠ 200 ∨ body = ""
    · exact ⟨none, by simp [get_sitemaps_from_root, fetchE, hF, h]⟩
    · cases hpr : parse_root_type (decompress_if_needed gz body) with
      | none => exact ⟨none, by simp [get_sitemaps_from_root, fetchE, hF, h, hpr]⟩
      | some t =>
        by_cases ht : t = "urlset"
        · exact ⟨some (u, "urlset", [u]),
            by simp [get_sitemaps_from_root, fetchE, hF, h, hpr, ht]⟩
        · exact ⟨some (u, "sitemapindex",
              extract_sitemaps_from_index (decompress_if_needed gz body)),
            by simp [get_sitemaps_from_root, fetchE, hF, h, hpr, ht]⟩

theorem resolveFallback_isOk (F : Fetcher) (gz : Gunzip) (base : String) :
    (resolveFallback F gz base).isOk = true := by
  unfold resolveFallback fallback_common_root
  rw [fallbackScan_find]
  cases hfind : (COMMON_SITEMAP_PATHS.map (fun p => base ++ p)).find? (respSitemap F gz) with
  | none => simp [Except.isOk, Except.toBool]
  | some url =>
    obtain ⟨w, hw⟩ := get_sitemaps_from_root_isOk F gz url
    cases w with
    | none => simp [hw, Except.isOk, Except.toBool]
    | some trip =>
      rcases trip with ⟨a, b, c⟩
      simp [hw, Except.isOk, Except.toBool]

/-- C7: the resolver is total — for every fetcher and gunzip oracle, every
oracle failure caught where the code catches it, resolution returns a
value for any input; and if the transport fails on every URL, resolution
degrades to "no sitemap found" for the normalized base. -/
theorem resolution_total_and_degrading :
    (∀ F : Fetcher, ∀ gz : Gunzip, ∀ raw : String, (resolve F gz raw).isOk = true) ∧
    (∀ F : Fetcher, ∀ gz : Gunzip, ∀ raw base : String,
      normalize_base raw = .ok base → (∀ u, ∃ e, F u = .error e) →
      resolve F gz raw = .ok (ResolveOut.noSitemap base)) := by
  constructor
  · intro F gz raw
    unfold resolve
    cases hn : normalize_base raw with
    | error e => simp [Except.isOk, Except.toBool]
    | ok base =>
      obtain ⟨v, hv⟩ := find_robots_sitemap_isOk F base
      cases v with
      | none =>
        simp only [hv]
        exact resolveFallback_isOk F gz base
      | some sm =>
        obtain ⟨w, hw⟩ := get_sitemaps_from_root_isOk F gz sm
        cases w with
        | none =>
          simp only [hv, hw]
          exact resolveFallback_isOk F gz base
        | some trip =>
          rcases trip with ⟨a, b, c⟩
          simp [hv, hw, Except.isOk, Except.toBool]
  · intro F gz raw base hb hfail
    have hfetch : ∀ u, fetchE F u = .ok (0, "") := by
      intro u
      obtain ⟨e, he⟩ := hfail u
      simp [fetchE, he]
    have hrob : find_robots_sitemap F base = .ok none := by
      simp [find_robots_sitemap, hfetch]
    have hfb : ∀ paths : List String, fallbackScan F gz base paths = .ok none := by
      intro paths
      induction paths with
      | nil => rfl
      | cons p rest ih => simp [fallbackScan, hfetch, ih]
    unfold resolve
    simp [hb, hrob, resolveFallback, fallback_common_root, hfb]

/-- C7 witness: a transport that always fails, against `example.com` —
resolution still returns, reporting no sitemap for the normalized base. -/
theorem resolution_total_and_degrading_witness :
    normalize_base ("example.com") = Except.ok ("https://example.com") ∧
    resolve (fun _ => Except.error ("net down")) (fun _ => Except.error ("gz"))
        ("example.com") =
      Except.ok (ResolveOut.noSitemap ("https://example.com")) := by
  constructor
  · rfl
  · exact resolution_total_and_degrading.2 (fun _ => Except.error ("net down"))
      (fun _ => Except.error ("gz")) ("example.com") ("https://example.com") rfl
      (fun u => ⟨"net down", rfl⟩)

end SitemapScan
